import Mathlib

/-!
# Verification of the gesture decision pipeline

Shallow embedding of the per-frame gesture decision pipeline implemented in
`src/utils/aiEnhancement.js` (function `detectGesture` and its helpers
`checkGestureSequence`, `calculateGestureStability`, `processAmbiguousGesture`)
and of the duplicate background implementation in
`public/audio-processors.js` (`BackgroundGestureService.detectGesture`).

Scores, thresholds and velocities are modelled as rationals (`ℚ`); the only
irrational computation in the source (`Math.sqrt` inside the stability metric)
is modelled exactly with `Real.sqrt`.  Timestamps are integers (milliseconds,
`Date.now()`).  Analytics-only side effects of the source
(`gestureCounters`, `saveGestureStatistics`, `console.log`) are omitted: they
do not feed back into any decision.
-/

/-- A named gesture candidate with its raw confidence score, as produced by
the external estimator for one frame. -/
structure Candidate where
  name : String
  score : ℚ
deriving DecidableEq

/-- The module-level mutable state of `detectGesture` that drives debouncing
and sequence (combo) detection: `lastGesture`, `lastGestureTime`,
`gestureSequence` and `gestureWindowStart` in `aiEnhancement.js`. -/
structure DebounceState where
  lastGesture : Option String
  lastGestureTime : ℤ
  gestureSequence : List (String × ℤ)
  gestureWindowStart : ℤ
deriving DecidableEq

/-- What the earlier pipeline stages resolved for one incoming frame:
no hand detected (`hands.length === 0`), a hand but no candidate surviving
the threshold (`estimatedGestures.gestures.length === 0`), or a resolved
winning gesture name (`finalGesture`). -/
inductive FrameInput where
  | noHand : FrameInput
  | noGesture : FrameInput
  | resolved : String → FrameInput
deriving DecidableEq

/-- The static combo-pattern table of `checkGestureSequence`
(`aiEnhancement.js`), with each comma-joined pattern string already split
into its list of gesture names. -/
def knownSequences : List (List String × String) :=
  [(["thumbs_up", "thumbs_down"], "TOGGLE_APPROVAL"),
   (["palm", "fist"], "GRAB_OBJECT"),
   (["swipe_left", "swipe_right"], "SHAKE_GESTURE"),
   (["victory", "fist"], "SCISSORS_TO_ROCK"),
   (["point_up", "point_down"], "FLIP_DIRECTION")]

/-- `checkGestureSequence(sequence)` (`aiEnhancement.js` lines 1402–1436):
returns the action of the first configured pattern whose names equal the
last `pattern.length` gesture names of the window, or nothing. -/
def checkGestureSequence (sequence : List (String × ℤ)) : Option String :=
  if sequence.length < 2 then none
  else
    let gestures := sequence.map Prod.fst
    (knownSequences.find? (fun p =>
      p.1.length ≤ gestures.length &&
        gestures.drop (gestures.length - p.1.length) == p.1)).map Prod.snd

/-- The sequence-window management block at the top of `detectGesture`
(lines 1183–1194): when more than 3000ms have elapsed since the window
start and the window is non-empty, check the window against the pattern
table (only when it holds more than one entry) and clear it. -/
def windowStep (s : DebounceState) (now : ℤ) : DebounceState × Option String :=
  if now - s.gestureWindowStart > 3000 ∧ s.gestureSequence.length > 0 then
    ({ s with gestureSequence := [], gestureWindowStart := now },
     if s.gestureSequence.length > 1 then checkGestureSequence s.gestureSequence else none)
  else (s, none)

/-- The no-hands branch of `detectGesture` (lines 1204–1215): after more
than 500ms since the last emission, clear `lastGesture` (and the sequence
window when it is stale beyond 1000ms). -/
def noHandStep (s : DebounceState) (now : ℤ) : DebounceState :=
  if s.lastGesture ≠ none ∧ now - s.lastGestureTime > 500 then
    if s.gestureSequence.length > 0 ∧ now - s.gestureWindowStart > 1000 then
      { s with lastGesture := none, gestureSequence := [] }
    else { s with lastGesture := none }
  else s

/-- The emission block of `detectGesture` (lines 1328–1358): when the
resolved name differs from `lastGesture` and more than 350ms have elapsed
since `lastGestureTime`, append to the sequence window (capacity 5,
oldest evicted), record the emission and return the emitted event. -/
def emitBlock (s : DebounceState) (now : ℤ) (finalGesture : String) :
    DebounceState × Option (String × ℤ) :=
  if some finalGesture ≠ s.lastGesture then
    if now - s.lastGestureTime > 350 then
      let windowStart := if s.gestureSequence.length = 0 then now else s.gestureWindowStart
      let seq := s.gestureSequence ++ [(finalGesture, now)]
      let seq := if seq.length > 5 then seq.tail else seq
      ({ lastGesture := some finalGesture, lastGestureTime := now,
         gestureSequence := seq, gestureWindowStart := windowStart },
       some (finalGesture, now))
    else (s, none)
  else (s, none)

/-- One frame of the debounce/sequence portion of `detectGesture`: the
window-management block runs first on every frame, then the branch selected
by what the frame resolved to.  Returns the new state, the emitted gesture
event (if any) and the reported combo action (if any). -/
def debounceStep (s : DebounceState) (now : ℤ) (input : FrameInput) :
    DebounceState × Option (String × ℤ) × Option String :=
  let w := windowStep s now
  match input with
  | FrameInput.noHand => (noHandStep w.1 now, none, w.2)
  | FrameInput.noGesture => (w.1, none, w.2)
  | FrameInput.resolved name =>
      let r := emitBlock w.1 now name
      (r.1, r.2, w.2)

/-- Run a list of `(timestamp, frame input)` pairs through `debounceStep`,
collecting the emitted events and reported combo actions in order. -/
def runSteps : DebounceState → List (ℤ × FrameInput) →
    DebounceState × List (String × ℤ) × List String
  | s, [] => (s, [], [])
  | s, f :: fs =>
    let r := debounceStep s f.1 f.2
    let rest := runSteps r.1 fs
    (rest.1, r.2.1.toList ++ rest.2.1, r.2.2.toList ++ rest.2.2)

/-- The fresh module state at session start: `lastGesture = null`,
`lastGestureTime = 0`, empty sequence window. -/
def initialState : DebounceState :=
  { lastGesture := none, lastGestureTime := 0, gestureSequence := [], gestureWindowStart := 0 }

/-- Events separated from a base time and from each other by more than the
350ms dwell interval. -/
def DwellChained : ℤ → List (String × ℤ) → Prop
  | _, [] => True
  | t0, e :: es => t0 + 350 < e.2 ∧ DwellChained e.2 es

-- Sanity checks on the step function (concrete executions of the embedding).
example : (runSteps initialState [(400, FrameInput.resolved "palm")]).2.1 = [("palm", 400)] := by
  decide

example :
    (runSteps initialState
        [(400, FrameInput.resolved "palm"), (500, FrameInput.resolved "fist")]).2.1
      = [("palm", 400)] := by
  decide

lemma windowStep_lastGesture (s : DebounceState) (now : ℤ) :
    (windowStep s now).1.lastGesture = s.lastGesture := by
  unfold windowStep
  split <;> rfl

lemma windowStep_lastGestureTime (s : DebounceState) (now : ℤ) :
    (windowStep s now).1.lastGestureTime = s.lastGestureTime := by
  unfold windowStep
  split <;> rfl

lemma noHandStep_lastGestureTime (s : DebounceState) (now : ℤ) :
    (noHandStep s now).lastGestureTime = s.lastGestureTime := by
  unfold noHandStep
  split
  · split <;> rfl
  · rfl

lemma emitBlock_emit {s : DebounceState} {now : ℤ} {name : String} {e : String × ℤ}
    (h : (emitBlock s now name).2 = some e) :
    e = (name, now) ∧ s.lastGestureTime + 350 < now ∧
      (emitBlock s now name).1.lastGestureTime = now ∧
      (emitBlock s now name).1.lastGesture = some name := by
  by_cases h1 : some name ≠ s.lastGesture
  · by_cases h2 : now - s.lastGestureTime > 350
    · unfold emitBlock at h ⊢
      rw [if_pos h1, if_pos h2] at h ⊢
      simp only [Option.some.injEq] at h
      exact ⟨h.symm, by omega, rfl, rfl⟩
    · unfold emitBlock at h
      rw [if_pos h1, if_neg h2] at h
      simp at h
  · unfold emitBlock at h
    rw [if_neg h1] at h
    simp at h

lemma emitBlock_no_emit {s : DebounceState} {now : ℤ} {name : String}
    (h : (emitBlock s now name).2 = none) :
    (emitBlock s now name).1 = s := by
  by_cases h1 : some name ≠ s.lastGesture
  · by_cases h2 : now - s.lastGestureTime > 350
    · unfold emitBlock at h
      rw [if_pos h1, if_pos h2] at h
      simp at h
    · unfold emitBlock
      rw [if_pos h1, if_neg h2]
  · unfold emitBlock
    rw [if_neg h1]

/-- If a frame emits an event, the event's timestamp is the frame's time,
more than 350ms after the last recorded emission time, and the new state
records the emission. -/
lemma debounceStep_emit {s : DebounceState} {now : ℤ} {i : FrameInput} {e : String × ℤ}
    (h : (debounceStep s now i).2.1 = some e) :
    e.2 = now ∧ s.lastGestureTime + 350 < now ∧
      (debounceStep s now i).1.lastGestureTime = now := by
  cases i with
  | noHand => simp [debounceStep] at h
  | noGesture => simp [debounceStep] at h
  | resolved name =>
      have h' : (emitBlock (windowStep s now).1 now name).2 = some e := h
      obtain ⟨he, hd, ht, _⟩ := emitBlock_emit h'
      rw [windowStep_lastGestureTime] at hd
      exact ⟨by rw [he], hd, ht⟩

/-- A frame that emits no event leaves the recorded last-emission time
unchanged. -/
lemma debounceStep_no_emit {s : DebounceState} {now : ℤ} {i : FrameInput}
    (h : (debounceStep s now i).2.1 = none) :
    (debounceStep s now i).1.lastGestureTime = s.lastGestureTime := by
  cases i with
  | noHand =>
      show (noHandStep (windowStep s now).1 now).lastGestureTime = _
      rw [noHandStep_lastGestureTime, windowStep_lastGestureTime]
  | noGesture =>
      show (windowStep s now).1.lastGestureTime = _
      rw [windowStep_lastGestureTime]
  | resolved name =>
      have h' : (emitBlock (windowStep s now).1 now name).2 = none := h
      show (emitBlock (windowStep s now).1 now name).1.lastGestureTime = _
      rw [emitBlock_no_emit h', windowStep_lastGestureTime]

/-- All events of a trace are chained more than 350ms apart, starting from
the initial state's recorded last-emission time. -/
lemma runSteps_dwellChained (frames : List (ℤ × FrameInput)) (s : DebounceState) :
    DwellChained s.lastGestureTime (runSteps s frames).2.1 := by
  induction frames generalizing s with
  | nil => trivial
  | cons f fs ih =>
      show DwellChained s.lastGestureTime
        ((debounceStep s f.1 f.2).2.1.toList ++ (runSteps (debounceStep s f.1 f.2).1 fs).2.1)
      cases h : (debounceStep s f.1 f.2).2.1 with
      | none =>
          have := ih (debounceStep s f.1 f.2).1
          rw [debounceStep_no_emit h] at this
          simpa [h] using this
      | some e =>
          obtain ⟨he, hd, ht⟩ := debounceStep_emit h
          have h2 := ih (debounceStep s f.1 f.2).1
          rw [ht] at h2
          simp only [h, Option.toList_some, List.cons_append, List.nil_append]
          refine ⟨by omega, ?_⟩
          rw [he]
          exact h2

lemma dwellChained_consecutive :
    ∀ (l₁ : List (String × ℤ)) (t0 : ℤ) (e1 e2 : String × ℤ) (l₂ : List (String × ℤ)),
      DwellChained t0 (l₁ ++ e1 :: e2 :: l₂) → e1.2 + 350 < e2.2 := by
  intro l₁
  induction l₁ with
  | nil =>
      intro t0 e1 e2 l₂ h
      exact h.2.1
  | cons a as ih =>
      intro t0 e1 e2 l₂ h
      exact ih a.2 e1 e2 l₂ h.2

/-- C1: for every pair of consecutively emitted gesture events whose names
differ, the difference between their timestamps is at least the 350ms dwell
interval; and a resolved name that differs from the last emitted name while
less than 350ms has elapsed since the last emission is suppressed: no event,
no sequence-window entry, and no update of the last-emitted state (only the
frame-initial window-expiry bookkeeping happens). -/
theorem c1_dwell_interval_and_suppression :
    (∀ (s : DebounceState) (frames : List (ℤ × FrameInput))
       (l₁ : List (String × ℤ)) (e1 e2 : String × ℤ) (l₂ : List (String × ℤ)),
       (runSteps s frames).2.1 = l₁ ++ e1 :: e2 :: l₂ → e1.1 ≠ e2.1 →
       e1.2 + 350 ≤ e2.2)
    ∧ (∀ (s : DebounceState) (now : ℤ) (name : String),
       some name ≠ s.lastGesture → now - s.lastGestureTime < 350 →
       debounceStep s now (FrameInput.resolved name)
         = ((windowStep s now).1, none, (windowStep s now).2)) := by
  constructor
  · intro s frames l₁ e1 e2 l₂ hev _
    have := runSteps_dwellChained frames s
    rw [hev] at this
    have := dwellChained_consecutive l₁ s.lastGestureTime e1 e2 l₂ this
    omega
  · intro s now name hne hdwell
    show ((emitBlock (windowStep s now).1 now name).1,
          (emitBlock (windowStep s now).1 now name).2, (windowStep s now).2) = _
    have hcond : ¬ (now - (windowStep s now).1.lastGestureTime > 350) := by
      rw [windowStep_lastGestureTime]; omega
    have hname : some name ≠ (windowStep s now).1.lastGesture := by
      rw [windowStep_lastGesture]; exact hne
    unfold emitBlock
    rw [if_pos hname, if_neg hcond]

/-- Witness for C1: a concrete two-event trace (events at t=400 and t=800)
satisfies the dwell bound, and a concrete suppressed frame changes nothing. -/
theorem c1_witness :
    ((("palm", (400 : ℤ)).2 + 350 ≤ (("fist", (800 : ℤ))).2)
    ∧ debounceStep ⟨some "palm", 600, [], 0⟩ 700 (FrameInput.resolved "fist")
        = ((windowStep ⟨some "palm", 600, [], 0⟩ 700).1, none,
           (windowStep ⟨some "palm", 600, [], 0⟩ 700).2)) := by
  constructor
  · exact c1_dwell_interval_and_suppression.1 initialState
      [(400, FrameInput.resolved "palm"), (800, FrameInput.resolved "fist")]
      [] ("palm", 400) ("fist", 800) [] (by decide) (by decide)
  · exact c1_dwell_interval_and_suppression.2 ⟨some "palm", 600, [], 0⟩ 700 "fist"
      (by decide) (by decide)

/-- C6 counterexample: the pair `thumbs_up@400`, `thumbs_down@800` is emitted
and enters the sequence window with the second event within 3000ms of the
first, and the window matches the configured `TOGGLE_APPROVAL` pattern, yet
no combo action is reported by either frame: the pattern table is not
checked after each append. -/
theorem c6_counterexample :
    (runSteps initialState
        [(400, FrameInput.resolved "thumbs_up"), (800, FrameInput.resolved "thumbs_down")]).2.1
      = [("thumbs_up", 400), ("thumbs_down", 800)]
    ∧ checkGestureSequence [("thumbs_up", 400), ("thumbs_down", 800)] = some "TOGGLE_APPROVAL"
    ∧ (runSteps initialState
        [(400, FrameInput.resolved "thumbs_up"), (800, FrameInput.resolved "thumbs_down")]).2.2
      = [] := by
  refine ⟨by decide, by decide, by decide⟩

/-- C6 amended: the pattern table is checked not after each append but at the
first subsequent frame at which more than 3000ms have elapsed since the
window start (and the window holds more than one entry); at that point the
matching combo action is reported (for a pattern pair whose events entered
the window within 3000ms of each other), while the same pair of events
spaced 4000ms apart never produces the combo action. -/
theorem c6_amended :
    (∀ (s : DebounceState) (now : ℤ) (i : FrameInput) (a : String),
       now - s.gestureWindowStart > 3000 → s.gestureSequence.length > 1 →
       checkGestureSequence s.gestureSequence = some a →
       (debounceStep s now i).2.2 = some a)
    ∧ (runSteps initialState
        [(400, FrameInput.resolved "thumbs_up"), (800, FrameInput.resolved "thumbs_down"),
         (4000, FrameInput.noHand)]).2.2
      = ["TOGGLE_APPROVAL"]
    ∧ (runSteps initialState
        [(400, FrameInput.resolved "thumbs_up"), (4400, FrameInput.resolved "thumbs_down"),
         (8000, FrameInput.noHand)]).2.2
      = [] := by
  refine ⟨?_, by decide, by decide⟩
  intro s now i a hExp hLen hSeq
  have hw : (windowStep s now).2 = some a := by
    unfold windowStep
    rw [if_pos ⟨hExp, by omega⟩, if_pos hLen]
    exact hSeq
  cases i with
  | noHand => exact hw
  | noGesture => exact hw
  | resolved name => exact hw

/-- Witness for C6's amended statement: a window holding the matching pair,
inspected by a frame 3600ms after the window start, reports the combo. -/
theorem c6_witness :
    (debounceStep ⟨some "thumbs_down", 800, [("thumbs_up", 400), ("thumbs_down", 800)], 400⟩
        4000 FrameInput.noHand).2.2 = some "TOGGLE_APPROVAL" :=
  c6_amended.1 ⟨some "thumbs_down", 800, [("thumbs_up", 400), ("thumbs_down", 800)], 400⟩
    4000 FrameInput.noHand "TOGGLE_APPROVAL" (by decide) (by decide) (by decide)

lemma debounceStep_same_name (s : DebounceState) (now : ℤ) (b : String)
    (h : s.lastGesture = some b) :
    (debounceStep s now (FrameInput.resolved b)).2.1 = none
    ∧ (debounceStep s now (FrameInput.resolved b)).1.lastGesture = some b := by
  have h1 : ¬ (some b ≠ (windowStep s now).1.lastGesture) := by
    rw [windowStep_lastGesture, h]
    simp
  have hb : emitBlock (windowStep s now).1 now b = ((windowStep s now).1, none) := by
    unfold emitBlock
    rw [if_neg h1]
  refine ⟨?_, ?_⟩
  · show (emitBlock (windowStep s now).1 now b).2 = none
    rw [hb]
  · show (emitBlock (windowStep s now).1 now b).1.lastGesture = some b
    rw [hb, windowStep_lastGesture, h]

/-- Once the debouncer is already holding the resolved name, a run of frames
all resolving that same name emits nothing. -/
lemma runSteps_holding (b : String) (frames : List (ℤ × FrameInput)) :
    ∀ s : DebounceState, (∀ f ∈ frames, f.2 = FrameInput.resolved b) →
      s.lastGesture = some b → (runSteps s frames).2.1 = [] := by
  induction frames with
  | nil => intro s _ _; rfl
  | cons f fs ih =>
      intro s hall hs
      have hf : f.2 = FrameInput.resolved b := hall f (List.mem_cons_self f fs)
      have hrest : ∀ g ∈ fs, g.2 = FrameInput.resolved b :=
        fun g hg => hall g (List.mem_cons_of_mem f hg)
      obtain ⟨hnone, hkeep⟩ := debounceStep_same_name s f.1 b hs
      show ((debounceStep s f.1 f.2).2.1.toList ++ (runSteps (debounceStep s f.1 f.2).1 fs).2.1) = []
      rw [hf, hnone, ih (debounceStep s f.1 (FrameInput.resolved b)).1 hrest hkeep]
      rfl

lemma debounceStep_resolved_cases (s : DebounceState) (now : ℤ) (b : String) :
    (debounceStep s now (FrameInput.resolved b)).2.1 = none
    ∨ (debounceStep s now (FrameInput.resolved b)).1.lastGesture = some b := by
  cases h : (debounceStep s now (FrameInput.resolved b)).2.1 with
  | none => exact Or.inl rfl
  | some e =>
      right
      have h' : (emitBlock (windowStep s now).1 now b).2 = some e := h
      exact (emitBlock_emit h').2.2.2

/-- C8 counterexample: a run of one frame in which `fist` is resolved (above
threshold and differing from the last emitted `palm`) emits zero events,
because only 100ms have elapsed since the last emission — not exactly one
event per run. -/
theorem c8_counterexample :
    (runSteps ⟨some "palm", 1000, [], 1000⟩ [(1100, FrameInput.resolved "fist")]).2.1 = [] := by
  decide

/-- C8 amended: a run of frames all resolving the same winning name emits at
most one gesture event — every frame after the run's first emission emits
nothing — and a run starting while the debouncer already holds that name
emits none. -/
theorem c8_at_most_one_emission (s : DebounceState) (b : String)
    (frames : List (ℤ × FrameInput))
    (hall : ∀ f ∈ frames, f.2 = FrameInput.resolved b) :
    (runSteps s frames).2.1.length ≤ 1
    ∧ (s.lastGesture = some b → (runSteps s frames).2.1 = []) := by
  constructor
  · induction frames generalizing s with
    | nil => simp [runSteps]
    | cons f fs ih =>
        have hf : f.2 = FrameInput.resolved b := hall f (List.mem_cons_self f fs)
        have hrest : ∀ g ∈ fs, g.2 = FrameInput.resolved b :=
          fun g hg => hall g (List.mem_cons_of_mem f hg)
        show ((debounceStep s f.1 f.2).2.1.toList
            ++ (runSteps (debounceStep s f.1 f.2).1 fs).2.1).length ≤ 1
        rcases debounceStep_resolved_cases s f.1 b with hnone | hhold
        · rw [hf, hnone]
          simpa using ih (debounceStep s f.1 (FrameInput.resolved b)).1 hrest
        · rw [hf, runSteps_holding b fs (debounceStep s f.1 (FrameInput.resolved b)).1 hrest hhold]
          cases (debounceStep s f.1 (FrameInput.resolved b)).2.1 <;> simp
  · intro hs
    exact runSteps_holding b frames s hall hs

/-- Witness for C8: a concrete three-frame run of the same resolved name. -/
theorem c8_witness :
    (runSteps initialState
        [(400, FrameInput.resolved "victory"), (500, FrameInput.resolved "victory"),
         (900, FrameInput.resolved "victory")]).2.1.length ≤ 1
    ∧ (initialState.lastGesture = some "victory" →
        (runSteps initialState
          [(400, FrameInput.resolved "victory"), (500, FrameInput.resolved "victory"),
           (900, FrameInput.resolved "victory")]).2.1 = []) :=
  c8_at_most_one_emission initialState "victory"
    [(400, FrameInput.resolved "victory"), (500, FrameInput.resolved "victory"),
     (900, FrameInput.resolved "victory")]
    (by decide)

/-- C9: after a no-hand frame arriving more than 500ms past the last
emission time (in particular whenever the hand has been absent for more
than 500ms), the debouncer clears its last-emitted name, and the next
resolved gesture — even with a name identical to the previously emitted
one — is emitted as a fresh event. -/
theorem c9_absence_resets (s : DebounceState) (g : String) (t0 now1 now2 : ℤ)
    (hg : s.lastGesture = some g) (hle : s.lastGestureTime ≤ t0)
    (habs : t0 + 500 < now1) (hord : now1 ≤ now2) :
    (debounceStep s now1 FrameInput.noHand).1.lastGesture = none
    ∧ (debounceStep (debounceStep s now1 FrameInput.noHand).1 now2
        (FrameInput.resolved g)).2.1 = some (g, now2) := by
  have hclear : (debounceStep s now1 FrameInput.noHand).1.lastGesture = none := by
    show (noHandStep (windowStep s now1).1 now1).lastGesture = none
    have hcond : (windowStep s now1).1.lastGesture ≠ none ∧
        now1 - (windowStep s now1).1.lastGestureTime > 500 := by
      rw [windowStep_lastGesture, windowStep_lastGestureTime, hg]
      exact ⟨by simp, by omega⟩
    unfold noHandStep
    rw [if_pos hcond]
    split <;> rfl
  refine ⟨hclear, ?_⟩
  set s1 := (debounceStep s now1 FrameInput.noHand).1 with hs1
  have ht1 : s1.lastGestureTime = s.lastGestureTime := by
    rw [hs1]
    show (noHandStep (windowStep s now1).1 now1).lastGestureTime = _
    rw [noHandStep_lastGestureTime, windowStep_lastGestureTime]
  have h1 : some g ≠ (windowStep s1 now2).1.lastGesture := by
    rw [windowStep_lastGesture, hclear]
    simp
  have h2 : now2 - (windowStep s1 now2).1.lastGestureTime > 350 := by
    rw [windowStep_lastGestureTime, ht1]
    omega
  show (emitBlock (windowStep s1 now2).1 now2 g).2 = some (g, now2)
  unfold emitBlock
  rw [if_pos h1, if_pos h2]

/-- Witness for C9: a concrete absence reset followed by re-emission of the
same name. -/
theorem c9_witness :
    (debounceStep ⟨some "palm", 100, [], 100⟩ 700 FrameInput.noHand).1.lastGesture = none
    ∧ (debounceStep (debounceStep ⟨some "palm", 100, [], 100⟩ 700 FrameInput.noHand).1 720
        (FrameInput.resolved "palm")).2.1 = some ("palm", 720) :=
  c9_absence_resets ⟨some "palm", 100, [], 100⟩ "palm" 100 700 720
    (by decide) (by decide) (by decide) (by decide)

/-! ## Adaptive Threshold Controller (`aiEnhancement.js` lines 1239–1270,
`audio-processors.js` lines 1021–1033) -/

/-- The per-frame raise/lower adjustment of the foreground controller:
raise by 1.0 when the movement magnitude exceeds 15, lower by 0.5 when it
is below 5, otherwise leave unchanged. -/
def adjustThreshold (threshold magnitude : ℚ) : ℚ :=
  if magnitude > 15 then threshold + 1
  else if magnitude < 5 then threshold - 0.5
  else threshold

/-- The foreground clamp: `Math.max(6.0, Math.min(confidenceThreshold, 9.0))`. -/
def clampThreshold (t : ℚ) : ℚ := max 6 (min t 9)

/-- The working confidence threshold for one foreground frame: the stored
adaptive threshold, adjusted for motion, then clamped to `[6.0, 9.0]`.
This is the value passed to `gestureEstimator.estimate`. -/
def frameThreshold (adaptive magnitude : ℚ) : ℚ :=
  clampThreshold (adjustThreshold adaptive magnitude)

/-- The post-detection smoothing of the stored adaptive threshold
(line 1269): `adaptiveThreshold = confidenceThreshold * 0.9 +
adaptiveThreshold * 0.1`, executed only when the two values differ. -/
def smoothThreshold (adaptive target : ℚ) : ℚ :=
  if adaptive ≠ target then target * 0.9 + adaptive * 0.1 else adaptive

/-- The background service's working threshold for one frame
(`audio-processors.js` lines 1021–1033): base 9.0, raised by 1.0 above
magnitude 20, lowered by 0.5 below magnitude 5, clamped to `[7.5, 10.0]`. -/
def bgFrameThreshold (magnitude : ℚ) : ℚ :=
  max 7.5 (min (if magnitude > 20 then (9 : ℚ) + 1
                else if magnitude < 5 then (9 : ℚ) - 0.5
                else 9) 10)

/-- The initial value of the module-level `adaptiveThreshold` (line 1159). -/
def initialAdaptiveThreshold : ℚ := 7.5

/-- Modelled from the spec: the external estimator
(`gestureEstimator.estimate`, the fingerpose library) is not part of this
repository; per §4.4 of the spec the candidate score map is post-threshold
filtered, discarding entries below the working threshold. -/
def eligibleCandidates (cands : List Candidate) (threshold : ℚ) : List Candidate :=
  cands.filter (fun c => threshold ≤ c.score)

/-- The candidates eligible for selection in one foreground frame: the
estimator is invoked with the clamped per-frame working threshold. -/
def frameEligible (adaptive magnitude : ℚ) (cands : List Candidate) : List Candidate :=
  eligibleCandidates cands (frameThreshold adaptive magnitude)

lemma frameThreshold_bounds (adaptive magnitude : ℚ) :
    6 ≤ frameThreshold adaptive magnitude ∧ frameThreshold adaptive magnitude ≤ 9 := by
  unfold frameThreshold clampThreshold
  constructor
  · exact le_max_left 6 _
  · exact max_le (by norm_num) (min_le_right _ 9)

/-- C2: the working threshold invariant.  In the foreground, starting from
an in-range stored value, the adjusted-and-clamped frame threshold and the
exponentially smoothed updated value both lie in `[6.0, 9.0]` (and the
initial stored value is in range); the background service's frame threshold
always lies in `[7.5, 10.0]`; and the clamped frame value is exactly the
score cutoff deciding a candidate's eligibility for selection that frame. -/
theorem c2_threshold_invariant (adaptive magnitude : ℚ)
    (hlo : 6 ≤ adaptive) (hhi : adaptive ≤ 9) :
    (6 ≤ frameThreshold adaptive magnitude ∧ frameThreshold adaptive magnitude ≤ 9)
    ∧ (6 ≤ smoothThreshold adaptive (frameThreshold adaptive magnitude)
       ∧ smoothThreshold adaptive (frameThreshold adaptive magnitude) ≤ 9)
    ∧ (6 ≤ initialAdaptiveThreshold ∧ initialAdaptiveThreshold ≤ 9)
    ∧ (∀ m : ℚ, 7.5 ≤ bgFrameThreshold m ∧ bgFrameThreshold m ≤ 10)
    ∧ (∀ (cands : List Candidate) (c : Candidate),
        c ∈ frameEligible adaptive magnitude cands
          ↔ c ∈ cands ∧ frameThreshold adaptive magnitude ≤ c.score) := by
  obtain ⟨hf1, hf2⟩ := frameThreshold_bounds adaptive magnitude
  refine ⟨⟨hf1, hf2⟩, ?_, ⟨by norm_num [initialAdaptiveThreshold],
    by norm_num [initialAdaptiveThreshold]⟩, ?_, ?_⟩
  · unfold smoothThreshold
    split
    · constructor <;> nlinarith [hf1, hf2, hlo, hhi]
    · exact ⟨hlo, hhi⟩
  · intro m
    unfold bgFrameThreshold
    constructor
    · exact le_max_left _ _
    · refine max_le (by norm_num) (min_le_right _ 10)
  · intro cands c
    unfold frameEligible eligibleCandidates
    rw [List.mem_filter]
    simp

/-- Witness for C2: the invariant at the initial stored value with a
concrete still-hand magnitude, and a concrete eligibility check. -/
theorem c2_witness :
    ((6 ≤ frameThreshold 7.5 3 ∧ frameThreshold 7.5 3 ≤ 9)
    ∧ (6 ≤ smoothThreshold 7.5 (frameThreshold 7.5 3)
       ∧ smoothThreshold 7.5 (frameThreshold 7.5 3) ≤ 9)) := by
  have h := c2_threshold_invariant 7.5 3 (by norm_num) (by norm_num)
  exact ⟨h.1, h.2.1⟩

/-- C3 counterexample: with previous stored threshold 7.5 and instantaneous
target 6.0 the code updates to 6.0·0.9 + 7.5·0.1 = 6.15, not the claimed
0.9·7.5 + 0.1·6.0 = 7.35. -/
theorem c3_counterexample :
    smoothThreshold 7.5 6 ≠ 0.9 * 7.5 + 0.1 * 6 := by
  norm_num [smoothThreshold]

/-- C3 amended: the smoothing weights are the reverse of the claim — the
updated threshold equals 0.9 × new target + 0.1 × previous value (the guard
skipping the blend when the two coincide does not change the value). -/
theorem c3_smoothing_weights (adaptive target : ℚ) :
    smoothThreshold adaptive target = 0.9 * target + 0.1 * adaptive := by
  unfold smoothThreshold
  split
  · ring
  · rename_i h
    rw [not_not] at h
    rw [h]
    ring

/-! ## Motion override for swipe gestures (`aiEnhancement.js` lines
1316–1326, `audio-processors.js` lines 1055–1062) -/

/-- The foreground motion-enhancement block: starting from the winning
name, the `swipe_left`/`swipe_right` branches merely reassign the same
name when the horizontal velocity matches their condition. -/
def applyMotionEnhancement (name : String) (velocity : ℚ × ℚ) : String :=
  if name = "swipe_left" ∧ velocity.1 > 15 then "swipe_left"
  else if name = "swipe_right" ∧ velocity.1 < -15 then "swipe_right"
  else name

/-- The identical block of `BackgroundGestureService.detectGesture`. -/
def bgApplyMotionEnhancement (name : String) (velocity : ℚ × ℚ) : String :=
  if name = "swipe_left" ∧ velocity.1 > 15 then "swipe_left"
  else if name = "swipe_right" ∧ velocity.1 < -15 then "swipe_right"
  else name

/-! ## Confidence history, stability and the near-tie swap
(`aiEnhancement.js` lines 1293–1311 and 1373–1389) -/

/-- Arithmetic mean of a list of scores (`scores.reduce(...) / scores.length`). -/
def listMean (l : List ℚ) : ℚ := l.sum / l.length

/-- Population variance of a list of scores, as computed inside
`calculateGestureStability`. -/
def listVariance (l : List ℚ) : ℚ :=
  (l.map (fun s => (s - listMean l) ^ 2)).sum / l.length

/-- `calculateGestureStability(gestureName)` (lines 1373–1389): zero when
the gesture's confidence history holds fewer than 3 samples, otherwise the
inverse of the history's standard deviation plus the 0.01 epsilon. -/
noncomputable def calculateGestureStability (hist : String → List ℚ) (name : String) : ℝ :=
  if (hist name).length < 3 then 0
  else 1 / (Real.sqrt ((listVariance (hist name) : ℚ) : ℝ) + 0.01)

/-- The near-tie resolution step of `detectGesture` (lines 1293–1311): with
the two top-scored candidates in score order, swap them exactly when the
second's score is within 10% of the first's and the second's stability
exceeds 1.5 times the first's; the selected winner is the resulting top
entry. -/
noncomputable def resolveWinner (hist : String → List ℚ) (first second : Candidate) :
    Candidate :=
  if second.score > first.score * 0.9 then
    if calculateGestureStability hist second.name
        > calculateGestureStability hist first.name * 1.5 then second
    else first
  else first

lemma calculateGestureStability_nonneg (hist : String → List ℚ) (name : String) :
    0 ≤ calculateGestureStability hist name := by
  unfold calculateGestureStability
  split
  · exact le_refl 0
  · have h1 : (0:ℝ) < Real.sqrt ((listVariance (hist name) : ℚ) : ℝ) + 0.01 := by
      have := Real.sqrt_nonneg (((listVariance (hist name) : ℚ) : ℝ))
      linarith
    positivity

/-- The confidence histories of the C4 counterexample: the top-scored
gesture's last samples oscillate around 8.0 with variance 9/100, the
runner-up's oscillate around 7.6 with the strictly smaller variance 1/16 —
yet the runner-up's stability does not exceed 1.5× the top one's. -/
def histC4 : String → List ℚ := fun n =>
  if n = "gRock" then [77/10, 83/10, 77/10, 83/10]
  else if n = "gPaper" then [147/20, 157/20, 147/20, 157/20]
  else []

lemma histC4_first_eq : histC4 "gRock" = [77/10, 83/10, 77/10, 83/10] := by
  unfold histC4
  rw [if_pos rfl]

lemma histC4_second_eq : histC4 "gPaper" = [147/20, 157/20, 147/20, 157/20] := by
  unfold histC4
  rw [if_neg (by decide), if_pos rfl]

lemma histC4_variance_first : listVariance (histC4 "gRock") = 9/100 := by
  rw [histC4_first_eq]
  norm_num [listVariance, listMean]

lemma histC4_variance_second : listVariance (histC4 "gPaper") = 1/16 := by
  rw [histC4_second_eq]
  norm_num [listVariance, listMean]

lemma histC4_stability_first :
    calculateGestureStability histC4 "gRock" = 1 / (3/10 + 0.01) := by
  unfold calculateGestureStability
  rw [if_neg (by rw [histC4_first_eq]; norm_num), histC4_variance_first]
  have h : (((9:ℚ)/100 : ℚ) : ℝ) = ((3/10 : ℝ)) ^ 2 := by
    push_cast
    norm_num
  rw [h, Real.sqrt_sq (by norm_num : (0:ℝ) ≤ 3/10)]

lemma histC4_stability_second :
    calculateGestureStability histC4 "gPaper" = 1 / (1/4 + 0.01) := by
  unfold calculateGestureStability
  rw [if_neg (by rw [histC4_second_eq]; norm_num), histC4_variance_second]
  have h : (((1:ℚ)/16 : ℚ) : ℝ) = ((1/4 : ℝ)) ^ 2 := by
    push_cast
    norm_num
  rw [h, Real.sqrt_sq (by norm_num : (0:ℝ) ≤ 1/4)]

/-- C4 counterexample: with raw scores 8.0 and 7.6 (inside the near-tie
band) and the second candidate's history of strictly lower variance than
the first's, the resolver still selects the first candidate — lower
variance alone does not trigger the swap. -/
theorem c4_counterexample :
    listVariance (histC4 "gPaper") < listVariance (histC4 "gRock")
    ∧ ((76:ℚ)/10) > 8 * 0.9
    ∧ resolveWinner histC4 ⟨"gRock", 8⟩ ⟨"gPaper", 76/10⟩ = ⟨"gRock", 8⟩ := by
  refine ⟨by rw [histC4_variance_first, histC4_variance_second]; norm_num, by norm_num, ?_⟩
  unfold resolveWinner
  rw [if_pos (by show (76:ℚ)/10 > 8 * 0.9; norm_num), if_neg ?_]
  show ¬ (calculateGestureStability histC4 "gPaper"
    > calculateGestureStability histC4 "gRock" * 1.5)
  rw [histC4_stability_first, histC4_stability_second, not_lt]
  norm_num

/-- C4 amended: in the near-tie band the resolver selects the second-ranked
candidate precisely under the source's swap condition — the second's
stability (inverse standard deviation) must exceed 1.5 times the first's;
strictly lower variance by itself does not suffice. -/
theorem c4_stability_swap (hist : String → List ℚ) (first second : Candidate)
    (hband : second.score > first.score * 0.9)
    (hstab : calculateGestureStability hist second.name
      > calculateGestureStability hist first.name * 1.5) :
    resolveWinner hist first second = second := by
  unfold resolveWinner
  rw [if_pos hband, if_pos hstab]

/-- Histories for the C4/C10 witnesses: a perfectly steady runner-up
(variance 0) against a spiky top candidate (variance 1), and a gesture with
fewer than 3 samples. -/
def histWitness : String → List ℚ := fun n =>
  if n = "steady" then [38/5, 38/5, 38/5]
  else if n = "spiky" then [7, 9, 7, 9]
  else if n = "newcomer" then [8]
  else []

lemma histWitness_steady_eq : histWitness "steady" = [38/5, 38/5, 38/5] := by
  unfold histWitness
  rw [if_pos rfl]

lemma histWitness_spiky_eq : histWitness "spiky" = [7, 9, 7, 9] := by
  unfold histWitness
  rw [if_neg (by decide), if_pos rfl]

lemma histWitness_newcomer_eq : histWitness "newcomer" = [8] := by
  unfold histWitness
  rw [if_neg (by decide), if_neg (by decide), if_pos rfl]

lemma histWitness_stability_steady :
    calculateGestureStability histWitness "steady" = 1 / (0 + 0.01) := by
  unfold calculateGestureStability
  rw [if_neg (by rw [histWitness_steady_eq]; norm_num)]
  have h : listVariance (histWitness "steady") = 0 := by
    rw [histWitness_steady_eq]
    norm_num [listVariance, listMean]
  rw [h]
  push_cast
  rw [Real.sqrt_zero]

lemma histWitness_stability_spiky :
    calculateGestureStability histWitness "spiky" = 1 / (1 + 0.01) := by
  unfold calculateGestureStability
  rw [if_neg (by rw [histWitness_spiky_eq]; norm_num)]
  have h : listVariance (histWitness "spiky") = 1 := by
    rw [histWitness_spiky_eq]
    norm_num [listVariance, listMean]
  rw [h]
  push_cast
  rw [Real.sqrt_one]

/-- Witness for C4's amended statement: the steady runner-up (stability 100)
displaces the spiky leader (stability 1/1.01). -/
theorem c4_witness :
    resolveWinner histWitness ⟨"spiky", 8⟩ ⟨"steady", 76/10⟩ = ⟨"steady", 76/10⟩ :=
  c4_stability_swap histWitness ⟨"spiky", 8⟩ ⟨"steady", 76/10⟩
    (by show (76:ℚ)/10 > 8 * 0.9; norm_num)
    (by show calculateGestureStability histWitness "steady"
          > calculateGestureStability histWitness "spiky" * 1.5
        rw [histWitness_stability_steady, histWitness_stability_spiky]
        norm_num)

/-- C10: a gesture whose confidence history holds fewer than 3 samples has
stability exactly 0, and consequently a second-ranked candidate with such a
short history can never displace the top-ranked candidate through the
stability-based swap. -/
theorem c10_short_history_stability :
    (∀ (hist : String → List ℚ) (name : String), (hist name).length < 3 →
      calculateGestureStability hist name = 0)
    ∧ (∀ (hist : String → List ℚ) (first second : Candidate),
        (hist second.name).length < 3 → resolveWinner hist first second = first) := by
  have hzero : ∀ (hist : String → List ℚ) (name : String), (hist name).length < 3 →
      calculateGestureStability hist name = 0 := by
    intro hist name h
    unfold calculateGestureStability
    rw [if_pos h]
  refine ⟨hzero, ?_⟩
  intro hist first second h
  unfold resolveWinner
  split
  · rw [if_neg]
    rw [hzero hist second.name h, not_lt]
    exact mul_nonneg (calculateGestureStability_nonneg hist first.name) (by norm_num)
  · rfl

/-- Witness for C10: the one-sample `newcomer` gesture has stability 0 and
cannot displace the spiky leader despite a near-tie score. -/
theorem c10_witness :
    calculateGestureStability histWitness "newcomer" = 0
    ∧ resolveWinner histWitness ⟨"spiky", 8⟩ ⟨"newcomer", 79/10⟩ = ⟨"spiky", 8⟩ :=
  ⟨c10_short_history_stability.1 histWitness "newcomer"
     (by rw [histWitness_newcomer_eq]; norm_num),
   c10_short_history_stability.2 histWitness ⟨"spiky", 8⟩ ⟨"newcomer", 79/10⟩
     (by show (histWitness "newcomer").length < 3; rw [histWitness_newcomer_eq]; norm_num)⟩

/-- C7: the velocity-consistency check on swipe winners is only ever a
confirmation — in both implementations the resolved name after the motion
block equals the winning candidate's name for every velocity, so a
contradicting horizontal velocity (or no motion at all) never rejects or
replaces a swipe candidate. -/
theorem c7_motion_never_rejects (name : String) (velocity : ℚ × ℚ) :
    applyMotionEnhancement name velocity = name
    ∧ bgApplyMotionEnhancement name velocity = name := by
  constructor
  · unfold applyMotionEnhancement
    split
    · rename_i h
      exact h.1.symm
    · split
      · rename_i h
        exact h.1.symm
      · rfl
  · unfold bgApplyMotionEnhancement
    split
    · rename_i h
      exact h.1.symm
    · split
      · rename_i h
        exact h.1.symm
      · rfl

/-! ## Arbitration Gateway (`aiEnhancement.js` lines 209–290,
`processAmbiguousGesture`) -/

/-- A tied candidate submitted to the arbitration gateway. -/
structure ArbCandidate where
  name : String
  confidence : ℚ
deriving DecidableEq

/-- What `processAmbiguousGesture` hands back to its caller: the resolved
gesture name and confidence, plus whether the value was adjudicated by the
external service (`aiEnhanced`). -/
structure ArbResult where
  name : String
  confidence : ℚ
  aiEnhanced : Bool
deriving DecidableEq

/-- The outcome of the external arbitration call, which is outside this
repository: either any of the failure modes handled by the source (client
uninitialized and initialization failing, request error, timeout, service
unavailable — all reaching a fallback return) or a parsed response
`{ gesture, confidence, explanation }`. -/
inductive ArbOutcome where
  | failure : ArbOutcome
  | response : String → ℚ → String → ArbOutcome
deriving DecidableEq

/-- `candidates.sort((a, b) => b.confidence - a.confidence)`: a stable sort
by descending confidence. -/
def sortByConfidenceDesc (candidates : List ArbCandidate) : List ArbCandidate :=
  candidates.mergeSort (fun a b => decide (b.confidence ≤ a.confidence))

/-- The fallback return of `processAmbiguousGesture`: the highest-raw-score
submitted candidate (`sort(...)[0]`), not marked as AI-adjudicated.  Empty
input would make the source return `undefined`, modelled as `none`. -/
def fallbackCandidate (candidates : List ArbCandidate) : Option ArbResult :=
  (sortByConfidenceDesc candidates).head?.map (fun c => ⟨c.name, c.confidence, false⟩)

/-- `processAmbiguousGesture(candidates, userContext)` as a function of the
external call's outcome: on success, adopt the first submitted candidate
whose name matches the returned gesture case-insensitively, with the
service's confidence and marked adjudicated; on a non-matching name or on
any failure, fall back to the highest-raw-confidence candidate. -/
def processAmbiguousGesture (candidates : List ArbCandidate) (outcome : ArbOutcome) :
    Option ArbResult :=
  match outcome with
  | ArbOutcome.failure => fallbackCandidate candidates
  | ArbOutcome.response gesture conf _ =>
      match candidates.find? (fun c => c.name.toLower == gesture.toLower) with
      | some c => some ⟨c.name, conf, true⟩
      | none => fallbackCandidate candidates

lemma fallbackCandidate_spec (candidates : List ArbCandidate) (hne : candidates ≠ []) :
    ∃ r, fallbackCandidate candidates = some r ∧ r.aiEnhanced = false
      ∧ (∃ c ∈ candidates, r.name = c.name ∧ r.confidence = c.confidence)
      ∧ ∀ c ∈ candidates, c.confidence ≤ r.confidence := by
  have hperm := List.mergeSort_perm candidates (fun a b => decide (b.confidence ≤ a.confidence))
  have hsorted := @List.sorted_mergeSort ArbCandidate
    (fun a b => decide (b.confidence ≤ a.confidence))
    (fun a b c hab hbc => by
      simp only [decide_eq_true_eq] at hab hbc ⊢
      exact le_trans hbc hab)
    (fun a b => by
      simp only [Bool.or_eq_true, decide_eq_true_eq]
      exact le_total b.confidence a.confidence)
    candidates
  cases hs : sortByConfidenceDesc candidates with
  | nil =>
      exfalso
      apply hne
      have h0 : candidates.mergeSort (fun a b => decide (b.confidence ≤ a.confidence)) = [] := hs
      rw [h0] at hperm
      exact hperm.symm.eq_nil
  | cons c t =>
      have h0 : candidates.mergeSort (fun a b => decide (b.confidence ≤ a.confidence)) = c :: t :=
        hs
      rw [h0] at hperm hsorted
      refine ⟨⟨c.name, c.confidence, false⟩, ?_, rfl, ?_, ?_⟩
      · unfold fallbackCandidate
        rw [hs]
        rfl
      · exact ⟨c, hperm.subset (List.mem_cons_self c t), rfl, rfl⟩
      · intro c' hc'
        have hmem : c' ∈ c :: t := hperm.symm.subset hc'
        rcases List.mem_cons.1 hmem with h | h
        · rw [h]
        · have := (List.pairwise_cons.1 hsorted).1 c' h
          simpa using this

/-- C5: for every non-empty candidate list, if the external arbitration
call fails in any of the handled ways, or the service names a gesture that
matches none of the submitted candidates, `processAmbiguousGesture` still
returns a result — the submitted candidate with the highest raw confidence,
not marked as adjudicated — and in particular the tied pair
`[{A, 8.0}, {B, 7.9}]` with no successful response resolves to `A`. -/
theorem c5_arbitration_fallback :
    (∀ (candidates : List ArbCandidate) (outcome : ArbOutcome),
      candidates ≠ [] →
      (outcome = ArbOutcome.failure ∨
        ∀ g conf expl, outcome = ArbOutcome.response g conf expl →
          ∀ c ∈ candidates, ¬ (c.name.toLower == g.toLower)) →
      ∃ r, processAmbiguousGesture candidates outcome = some r
        ∧ r.aiEnhanced = false
        ∧ (∃ c ∈ candidates, r.name = c.name ∧ r.confidence = c.confidence)
        ∧ ∀ c ∈ candidates, c.confidence ≤ r.confidence)
    ∧ processAmbiguousGesture [⟨"A", 8⟩, ⟨"B", 79/10⟩] ArbOutcome.failure
        = some ⟨"A", 8, false⟩ := by
  constructor
  · intro candidates outcome hne hfail
    cases outcome with
    | failure => exact fallbackCandidate_spec candidates hne
    | response g conf expl =>
        have hnone : candidates.find? (fun c => c.name.toLower == g.toLower) = none := by
          rw [List.find?_eq_none]
          intro c hc
          rcases hfail with h | h
          · exact absurd h (by simp)
          · simpa using h g conf expl rfl c hc
        have heq : processAmbiguousGesture candidates (ArbOutcome.response g conf expl)
            = fallbackCandidate candidates := by
          show (match List.find? (fun c => c.name.toLower == g.toLower) candidates with
            | some c => some ({ name := c.name, confidence := conf, aiEnhanced := true } : ArbResult)
            | none => fallbackCandidate candidates) = fallbackCandidate candidates
          rw [hnone]
        rw [heq]
        exact fallbackCandidate_spec candidates hne
  · unfold processAmbiguousGesture fallbackCandidate sortByConfidenceDesc
    norm_num [List.mergeSort]

/-- Witness for C5: the concrete tied pair under a failing call, and under a
response naming an unknown gesture. -/
theorem c5_witness :
    ∃ r, processAmbiguousGesture [⟨"A", 8⟩, ⟨"B", 79/10⟩] ArbOutcome.failure = some r
      ∧ r.aiEnhanced = false
      ∧ (∃ c ∈ [(⟨"A", 8⟩ : ArbCandidate), ⟨"B", 79/10⟩],
          r.name = c.name ∧ r.confidence = c.confidence)
      ∧ ∀ c ∈ [(⟨"A", 8⟩ : ArbCandidate), ⟨"B", 79/10⟩], c.confidence ≤ r.confidence :=
  c5_arbitration_fallback.1 [⟨"A", 8⟩, ⟨"B", 79/10⟩] ArbOutcome.failure
    (by simp) (Or.inl rfl)
